import Mathlib

/-!
Verification of the batch/point navigation and validation core of the
GT point cleansing app (`src/main.py`), against its natural-language
specification.

Shallow embedding conventions:
* A pandas (Geo)DataFrame row becomes a `Record`.  The pandas index label of
  a row (a `RangeIndex` position `0..N-1` assigned by `read_csv`/`read_file`
  and preserved by `drop_duplicates` and by boolean filtering) is the `idx`
  field; `.loc[label, 'validation'] = v` becomes `setByIdx`.
* Coordinates are modelled as exact values (`Int × Int`): the only operation
  the code performs on them for the verified claims is equality
  (`drop_duplicates(subset=['temp_latitude','temp_longitude'])`), so the
  embedding needs decidable equality, not float arithmetic.
* Streamlit session state becomes the explicit `AppState` record; each UI
  handler becomes a total function on `AppState`, with the handler's render
  guard (`disabled=...`, surrounding `if` blocks) embedded as the condition
  under which the handler can change the state.
* `validation` stays a `String`, as in the code, with the load-time coercion
  `True → "Correct"`, `False → "Incorrect"`, anything else passed through in
  its string form.
-/

/-- One row of the dataset (one geospatial point), as produced by
`load_data` in `src/main.py`.  `idx` is the pandas index label of the row. -/
structure Record where
  idx : Nat
  s_no : Int
  crop_name : String
  lat : Int
  lon : Int
  validation : String
deriving DecidableEq

/-- The coordinate pair used for deduplication:
`(gdf.geometry.y, gdf.geometry.x)` = `(temp_latitude, temp_longitude)`
in `load_data` (src/main.py lines 223-224). -/
def coords (r : Record) : Int × Int :=
  (r.lat, r.lon)

/-- `l.loc[i, 'validation'] = v`: set the validation label of every row whose
pandas index label is `i` (labels are unique in every frame the app builds,
so this touches exactly one row there). -/
def setByIdx (l : List Record) (i : Nat) (v : String) : List Record :=
  l.map (fun x => if x.idx = i then { x with validation := v } else x)

/-- First element satisfying a predicate (the row `frame[cond].index[0]`
selects, and the row `find?` of a search would give). -/
def firstWith (p : Record → Bool) : List Record → Option Record
  | [] => none
  | r :: rs => if p r then some r else firstWith p rs

/-- Number of elements satisfying a predicate. -/
def countWith (p : Record → Bool) : List Record → Nat
  | [] => 0
  | r :: rs => (if p r then 1 else 0) + countWith p rs

/-- Position of the first element satisfying a predicate: the composite
`frame[frame['S_No'] == n].index[0]` followed by `index.get_loc(...)`
(src/main.py lines 304-309), under the app's unique index labels. -/
def findPos (p : Record → Bool) : List Record → Option Nat
  | [] => none
  | r :: rs => if p r then some 0 else (findPos p rs).map (· + 1)

/-- `list[i]` as an option (`.iloc[i]` / `.index[i]` on a frame). -/
def nth : List Record → Nat → Option Record
  | [], _ => none
  | r :: _, 0 => some r
  | _ :: rs, n + 1 => nth rs n

/-- Core of `drop_duplicates(subset=[lat, lon])` (keep='first', the pandas
default): keep a row iff its coordinate pair has not been seen earlier. -/
def dedupAux (seen : List (Int × Int)) : List Record → List Record
  | [] => []
  | r :: rs =>
    if coords r ∈ seen then dedupAux seen rs
    else r :: dedupAux (coords r :: seen) rs

/-- `gdf.drop_duplicates(subset=['temp_latitude','temp_longitude'])`
(src/main.py line 225). -/
def dedupByCoords (l : List Record) : List Record :=
  dedupAux [] l

/-- The set of coordinate pairs seen after scanning a list (specification
device for reasoning about `dedupAux` on appended lists). -/
def seenAfter (seen : List (Int × Int)) : List Record → List (Int × Int)
  | [] => seen
  | r :: rs =>
    if coords r ∈ seen then seenAfter seen rs
    else seenAfter (coords r :: seen) rs

lemma dedupAux_append (p q : List Record) (seen : List (Int × Int)) :
    dedupAux seen (p ++ q) = dedupAux seen p ++ dedupAux (seenAfter seen p) q := by
  induction p generalizing seen with
  | nil => simp [dedupAux, seenAfter]
  | cons r rs ih =>
    by_cases h : coords r ∈ seen
    · simp [dedupAux, seenAfter, h, ih]
    · simp [dedupAux, seenAfter, h, ih]

lemma mem_seenAfter_of_mem_seen (p : List Record) (seen : List (Int × Int))
    (c : Int × Int) (h : c ∈ seen) : c ∈ seenAfter seen p := by
  induction p generalizing seen with
  | nil => simpa [seenAfter] using h
  | cons r rs ih =>
    by_cases hr : coords r ∈ seen
    · simpa [seenAfter, hr] using ih seen h
    · simp only [seenAfter, if_neg hr]
      exact ih _ (List.mem_cons_of_mem _ h)

lemma coords_mem_seenAfter (p : List Record) (seen : List (Int × Int))
    (a : Record) (ha : a ∈ p) : coords a ∈ seenAfter seen p := by
  induction p generalizing seen with
  | nil => cases ha
  | cons r rs ih =>
    rcases List.mem_cons.mp ha with h | h
    · subst h
      by_cases hr : coords a ∈ seen
      · simpa [seenAfter, hr] using mem_seenAfter_of_mem_seen rs seen _ hr
      · simp only [seenAfter, if_neg hr]
        exact mem_seenAfter_of_mem_seen rs _ _ (List.mem_cons_self _ _)
    · by_cases hr : coords r ∈ seen
      · simpa [seenAfter, hr] using ih seen h
      · simp only [seenAfter, if_neg hr]
        exact ih _ h

lemma dedupAux_eq_self (l : List Record) (seen : List (Int × Int))
    (hfresh : ∀ r ∈ l, coords r ∉ seen)
    (hnd : List.Pairwise (fun a b => coords a ≠ coords b) l) :
    dedupAux seen l = l := by
  induction l generalizing seen with
  | nil => rfl
  | cons r rs ih =>
    have hr : coords r ∉ seen := hfresh r (List.mem_cons_self _ _)
    have hhead := List.pairwise_cons.mp hnd
    simp only [dedupAux, if_neg hr]
    congr 1
    refine ih _ ?_ hhead.2
    intro x hx
    simp only [List.mem_cons]
    rintro (hc | hc)
    · exact hhead.1 x hx (by simpa using hc.symm)
    · exact hfresh x (List.mem_cons_of_mem _ hx) hc

lemma dedupAux_sublist (l : List Record) (seen : List (Int × Int)) :
    (dedupAux seen l).Sublist l := by
  induction l generalizing seen with
  | nil => simp [dedupAux]
  | cons r rs ih =>
    by_cases h : coords r ∈ seen
    · simp only [dedupAux, if_pos h]
      exact (ih seen).cons r
    · simp only [dedupAux, if_neg h]
      exact (ih _).cons₂ r

lemma firstWith_dedupAux_of_mem (l : List Record) (seen : List (Int × Int))
    (c : Int × Int) (h : c ∈ seen) :
    firstWith (fun r => decide (coords r = c)) (dedupAux seen l) = none := by
  induction l generalizing seen with
  | nil => rfl
  | cons r rs ih =>
    by_cases hr : coords r ∈ seen
    · simpa [dedupAux, hr] using ih seen h
    · have hne : coords r ≠ c := fun hc => hr (hc ▸ h)
      simp only [dedupAux, if_neg hr, firstWith, decide_eq_true_eq, if_neg hne]
      exact ih _ (List.mem_cons_of_mem _ h)

lemma firstWith_dedupAux (l : List Record) (seen : List (Int × Int))
    (c : Int × Int) (h : c ∉ seen) :
    firstWith (fun r => decide (coords r = c)) (dedupAux seen l)
      = firstWith (fun r => decide (coords r = c)) l := by
  induction l generalizing seen with
  | nil => rfl
  | cons r rs ih =>
    by_cases hr : coords r ∈ seen
    · have hne : coords r ≠ c := fun hc => h (hc ▸ hr)
      simp only [dedupAux, if_pos hr, firstWith, decide_eq_true_eq, if_neg hne]
      exact ih seen h
    · by_cases hc : coords r = c
      · simp only [dedupAux, if_neg hr]
        simp [firstWith, hc]
      · simp only [dedupAux, if_neg hr, firstWith, decide_eq_true_eq, if_neg hc]
        refine ih _ ?_
        simp only [List.mem_cons]
        rintro (h' | h')
        · exact hc h'.symm
        · exact h h'

lemma countWith_dedupAux_of_mem (l : List Record) (seen : List (Int × Int))
    (c : Int × Int) (h : c ∈ seen) :
    countWith (fun r => decide (coords r = c)) (dedupAux seen l) = 0 := by
  induction l generalizing seen with
  | nil => rfl
  | cons r rs ih =>
    by_cases hr : coords r ∈ seen
    · simpa [dedupAux, hr] using ih seen h
    · have hne : coords r ≠ c := fun hc => hr (hc ▸ h)
      simp only [dedupAux, if_neg hr, countWith, decide_eq_true_eq, if_neg hne]
      simpa using ih _ (List.mem_cons_of_mem _ h)

lemma countWith_dedupAux_le_one (l : List Record) (seen : List (Int × Int))
    (c : Int × Int) :
    countWith (fun r => decide (coords r = c)) (dedupAux seen l) ≤ 1 := by
  induction l generalizing seen with
  | nil => simp [dedupAux, countWith]
  | cons r rs ih =>
    by_cases hr : coords r ∈ seen
    · simpa [dedupAux, hr] using ih seen
    · by_cases hc : coords r = c
      · simp only [dedupAux, if_neg hr, countWith, decide_eq_true_eq, if_pos hc]
        have h0 := countWith_dedupAux_of_mem rs (coords r :: seen) c
          (by simp [hc])
        omega
      · simp only [dedupAux, if_neg hr, countWith, decide_eq_true_eq, if_neg hc]
        simpa using ih _

/-- C10: load-time deduplication keeps exactly the first occurrence of each
coordinate pair — the result is a subsequence of the input, the first record
with any given coordinates (with all its fields: serial id, category,
validation status) survives unchanged, and at most one record per coordinate
pair remains. -/
theorem dedup_keeps_first_occurrence (l : List Record) :
    (dedupByCoords l).Sublist l
    ∧ (∀ c : Int × Int,
        firstWith (fun r => decide (coords r = c)) (dedupByCoords l)
          = firstWith (fun r => decide (coords r = c)) l)
    ∧ (∀ c : Int × Int,
        countWith (fun r => decide (coords r = c)) (dedupByCoords l) ≤ 1) := by
  refine ⟨dedupAux_sublist l [], fun c => ?_, fun c => countWith_dedupAux_le_one l [] c⟩
  exact firstWith_dedupAux l [] c (by simp)

/-- A raw `validation` cell as it comes out of the parsed source data:
a Python `True`, a Python `False`, or anything else. -/
inductive RawVal where
  | bTrue : RawVal
  | bFalse : RawVal
  | other : String → RawVal
deriving DecidableEq

/-- The coercion applied when the source data has a `validation` column
(src/main.py lines 216-218): `True → "Correct"`, `False → "Incorrect"`,
anything else passes through in its string form (`astype(str)`). -/
def mapValidation : RawVal → String
  | .bTrue => "Correct"
  | .bFalse => "Incorrect"
  | .other s => s

/-- One parsed source row, before `load_data` fills in defaults.  The
`s_no` / `crop_name` / `validationRaw` fields are only meaningful when the
corresponding column-presence flag of the table is set. -/
structure RawRow where
  lat : Int
  lon : Int
  s_no : Int
  crop_name : String
  validationRaw : RawVal
deriving DecidableEq

/-- A parsed source table (the (Geo)DataFrame right after `read_file` /
`read_csv`): its rows plus which optional columns are present. -/
structure RawTable where
  rows : List RawRow
  hasLat : Bool
  hasLon : Bool
  hasSNo : Bool
  hasCrop : Bool
  hasValidation : Bool
deriving DecidableEq

/-- Default-filling for one row at pandas index `pos`
(src/main.py lines 204-218): missing `crop_name` becomes "Unknown Crop",
missing `S_No` becomes `pos+1` (`range(1, len(gdf)+1)`), missing
`validation` becomes "Not Validated", present `validation` is coerced. -/
def processRow (t : RawTable) (pos : Nat) (row : RawRow) : Record :=
  { idx := pos
  , s_no := if t.hasSNo then row.s_no else Int.ofNat pos + 1
  , crop_name := if t.hasCrop then row.crop_name else "Unknown Crop"
  , lat := row.lat
  , lon := row.lon
  , validation := if t.hasValidation then mapValidation row.validationRaw
                  else "Not Validated" }

def toRecordsAux (t : RawTable) (pos : Nat) : List RawRow → List Record
  | [] => []
  | row :: rest => processRow t pos row :: toRecordsAux t (pos + 1) rest

/-- The dataset after column defaulting, before deduplication
(the `gdf` at src/main.py line 221, whose length is `initial_len`). -/
def toRecords (t : RawTable) : List Record :=
  toRecordsAux t 0 t.rows

/-- The loaded Record Store for a parsed table: column defaulting followed
by coordinate deduplication (src/main.py lines 204-232). -/
def load_process (t : RawTable) : List Record :=
  dedupByCoords (toRecords t)

/-- The removed-duplicate count reported in the warning at
src/main.py line 230: `initial_len - len(gdf)`. -/
def removed_duplicates (t : RawTable) : Nat :=
  (toRecords t).length - (load_process t).length

lemma toRecordsAux_length (t : RawTable) (rows : List RawRow) (pos : Nat) :
    (toRecordsAux t pos rows).length = rows.length := by
  induction rows generalizing pos with
  | nil => rfl
  | cons row rest ih => simp [toRecordsAux, ih]

lemma toRecordsAux_sno_lb (t : RawTable) (ht : t.hasSNo = false)
    (rows : List RawRow) (pos : Nat) :
    ∀ x ∈ toRecordsAux t pos rows, Int.ofNat pos + 1 ≤ x.s_no := by
  induction rows generalizing pos with
  | nil => intro x hx; cases hx
  | cons row rest ih =>
    intro x hx
    rcases List.mem_cons.mp hx with h | h
    · subst h
      simp [processRow, ht]
    · have := ih (pos + 1) x h
      have hcast : (Int.ofNat pos) + 1 ≤ Int.ofNat (pos + 1) := by
        simp [Int.ofNat_succ]
      omega

lemma toRecordsAux_sno_pairwise (t : RawTable) (ht : t.hasSNo = false)
    (rows : List RawRow) (pos : Nat) :
    List.Pairwise (fun a b => a.s_no ≠ b.s_no) (toRecordsAux t pos rows) := by
  induction rows generalizing pos with
  | nil => exact List.Pairwise.nil
  | cons row rest ih =>
    refine List.pairwise_cons.mpr ⟨?_, ih (pos + 1)⟩
    intro b hb
    have hlb := toRecordsAux_sno_lb t ht rest (pos + 1) b hb
    have : (processRow t pos row).s_no = Int.ofNat pos + 1 := by
      simp [processRow, ht]
    rw [this]
    have : Int.ofNat pos + 1 < Int.ofNat (pos + 1) + 1 := by
      simp [Int.ofNat_succ]
    omega

lemma toRecordsAux_sno_assigned (t : RawTable) (ht : t.hasSNo = false)
    (rows : List RawRow) (pos : Nat) :
    (toRecordsAux t pos rows).map Record.s_no
      = (List.range rows.length).map (fun i => Int.ofNat (pos + i) + 1) := by
  induction rows generalizing pos with
  | nil => rfl
  | cons row rest ih =>
    simp only [toRecordsAux, List.map_cons, List.length_cons, List.range_succ_eq_map,
      List.map_map]
    congr 1
    · simp [processRow, ht]
    · rw [ih (pos + 1)]
      apply List.map_congr_left
      intro i _
      have harg : pos + 1 + i = pos + Nat.succ i := by omega
      simp [Function.comp, harg]

lemma setByIdx_map_sno (l : List Record) (i : Nat) (v : String) :
    (setByIdx l i v).map Record.s_no = l.map Record.s_no := by
  induction l with
  | nil => rfl
  | cons r rs ih =>
    simp only [setByIdx, List.map_cons] at ih ⊢
    by_cases h : r.idx = i <;> simp [h, ih]

/-- An uploaded file: its base name and its lowercased extension (the
`os.path.splitext(f.name)[1].lower()` of src/main.py line 147). -/
structure FileEntry where
  base : String
  ext : String
deriving DecidableEq

/-- An upload attempt: the sorted uploaded file names, plus the outcome of
the black-box parser (`gpd.read_file` / `pd.read_csv`) on the recognized
data file — `Except.error` when parsing raises. -/
structure Upload where
  names : List FileEntry
  parsed : Except String RawTable

/-- The essential shapefile components (src/main.py line 150). -/
def shpExts : List String := [".shp", ".shx", ".dbf"]

/-- `load_data` (src/main.py lines 136-242): returns `none` exactly on the
failure paths — empty upload, mixed shapefile+CSV upload, incomplete
shapefile component set, parse error, CSV missing latitude/longitude
columns, or no recognizable data file; otherwise the processed store. -/
def load_data (u : Upload) : Option (List Record) :=
  if u.names = [] then none
  else
    let exts := u.names.map FileEntry.ext
    let is_shp := ∃ e ∈ shpExts, e ∈ exts
    let is_csv := ".csv" ∈ exts
    if is_shp ∧ is_csv then none
    else if is_shp ∧ ¬ (∀ e ∈ shpExts, e ∈ exts) then none
    else
      match u.parsed with
      | .error _ => none
      | .ok t =>
        if is_shp then some (load_process t)
        else if is_csv then
          if t.hasLat ∧ t.hasLon then some (load_process t) else none
        else none

/-- C4: loading a dataset in which exactly two records share an identical
coordinate pair (positions of `a` and `b` below, all other coordinate pairs
distinct) yields a store one shorter than the input, and the duplicate
warning reports exactly 1 removed record. -/
theorem load_dedup_removes_exactly_one (t : RawTable)
    (xs ys zs : List Record) (a b : Record)
    (hdecomp : toRecords t = xs ++ a :: (ys ++ b :: zs))
    (hab : coords a = coords b)
    (hnd : List.Pairwise (fun x y => coords x ≠ coords y)
      (xs ++ a :: (ys ++ zs))) :
    (load_process t).length + 1 = (toRecords t).length
    ∧ removed_duplicates t = 1 := by
  have key : load_process t = xs ++ a :: (ys ++ zs) := by
    unfold load_process dedupByCoords
    rw [hdecomp]
    have h1 : xs ++ a :: (ys ++ b :: zs) = (xs ++ a :: ys) ++ (b :: zs) := by
      simp
    rw [h1, dedupAux_append]
    have hbmem : coords b ∈ seenAfter [] (xs ++ a :: ys) := by
      have hmem : a ∈ xs ++ a :: ys := by simp
      have := coords_mem_seenAfter (xs ++ a :: ys) [] a hmem
      rwa [hab] at this
    rw [show dedupAux (seenAfter [] (xs ++ a :: ys)) (b :: zs)
          = dedupAux (seenAfter [] (xs ++ a :: ys)) zs from by
        simp [dedupAux, hbmem]]
    rw [← dedupAux_append]
    have happ : (xs ++ a :: ys) ++ zs = xs ++ a :: (ys ++ zs) := by simp
    rw [happ]
    exact dedupAux_eq_self _ [] (by simp) hnd
  have hlen1 : (load_process t).length
      = xs.length + 1 + (ys.length + zs.length) := by
    rw [key]
    simp only [List.length_append, List.length_cons]
    omega
  have hlen2 : (toRecords t).length
      = xs.length + 1 + (ys.length + (zs.length + 1)) := by
    rw [hdecomp]
    simp only [List.length_append, List.length_cons]
    omega
  constructor
  · omega
  · unfold removed_duplicates
    omega

/-- A raw source row with given coordinates (fixed filler attributes). -/
def trow (la lo : Int) : RawRow :=
  { lat := la, lon := lo, s_no := 0, crop_name := "Rice"
  , validationRaw := RawVal.other "x" }

/-- Concrete 3-row source table whose first and third rows share
coordinates. -/
def t3 : RawTable :=
  { rows := [trow 0 0, trow 5 5, trow 0 0]
  , hasLat := true, hasLon := true
  , hasSNo := false, hasCrop := true, hasValidation := false }

theorem load_dedup_removes_exactly_one_witness :
    toRecords t3
      = [] ++ processRow t3 0 (trow 0 0)
          :: ([processRow t3 1 (trow 5 5)] ++ processRow t3 2 (trow 0 0) :: [])
    ∧ coords (processRow t3 0 (trow 0 0)) = coords (processRow t3 2 (trow 0 0))
    ∧ List.Pairwise (fun x y => coords x ≠ coords y)
        ([] ++ processRow t3 0 (trow 0 0) :: ([processRow t3 1 (trow 5 5)] ++ []))
    ∧ ((load_process t3).length + 1 = (toRecords t3).length
        ∧ removed_duplicates t3 = 1) :=
  ⟨by decide, by decide, by decide,
   load_dedup_removes_exactly_one t3 [] [processRow t3 1 (trow 5 5)] []
     (processRow t3 0 (trow 0 0)) (processRow t3 2 (trow 0 0))
     (by decide) (by decide) (by decide)⟩

/-- C9 (amended): when the source data lacks a serial-id column, load
assigns serial ids `1..N` in load order (before deduplication), so the
loaded store's serial ids are pairwise distinct; and serial ids are never
reassigned after load — the only post-load mutation, the validation write,
preserves every serial id.  (When the source data does provide serial ids,
they are passed through unchanged and uniqueness is NOT enforced; see the
counterexample.) -/
theorem serial_ids_assigned_unique (t : RawTable) (ht : t.hasSNo = false) :
    List.Pairwise (fun a b => a.s_no ≠ b.s_no) (load_process t)
    ∧ (toRecords t).map Record.s_no
        = (List.range t.rows.length).map (fun i => Int.ofNat i + 1)
    ∧ (∀ (l : List Record) (i : Nat) (v : String),
        (setByIdx l i v).map Record.s_no = l.map Record.s_no) := by
  refine ⟨?_, ?_, fun l i v => setByIdx_map_sno l i v⟩
  · exact List.Pairwise.sublist (dedupAux_sublist _ [])
      (toRecordsAux_sno_pairwise t ht t.rows 0)
  · have := toRecordsAux_sno_assigned t ht t.rows 0
    simpa using this

theorem serial_ids_assigned_unique_witness :
    t3.hasSNo = false
    ∧ List.Pairwise (fun a b => a.s_no ≠ b.s_no) (load_process t3)
    ∧ (toRecords t3).map Record.s_no
        = (List.range t3.rows.length).map (fun i => Int.ofNat i + 1)
    ∧ (setByIdx (load_process t3) 0 "Correct").map Record.s_no
        = (load_process t3).map Record.s_no :=
  ⟨by decide,
   (serial_ids_assigned_unique t3 (by decide)).1,
   (serial_ids_assigned_unique t3 (by decide)).2.1,
   (serial_ids_assigned_unique t3 (by decide)).2.2 (load_process t3) 0 "Correct"⟩

/-- Source table that PROVIDES an `S_No` column with a duplicated value on
two rows with distinct coordinates. -/
def tdup : RawTable :=
  { rows := [ { lat := 0, lon := 0, s_no := 1, crop_name := "Rice"
              , validationRaw := RawVal.other "a" }
            , { lat := 1, lon := 1, s_no := 1, crop_name := "Wheat"
              , validationRaw := RawVal.other "b" } ]
  , hasLat := true, hasLon := true
  , hasSNo := true, hasCrop := true, hasValidation := false }

/-- A CSV upload whose parse result is `tdup`. -/
def udup : Upload :=
  { names := [{ base := "points", ext := ".csv" }], parsed := Except.ok tdup }

/-- C9 counterexample: a loadable CSV dataset that provides its own `S_No`
column with a repeated value produces a Record Store whose serial ids are
NOT unique — `load_data` enforces nothing about source-provided ids. -/
theorem serial_ids_not_unique_counterexample :
    load_data udup = some (load_process tdup)
    ∧ (load_process tdup).map Record.s_no = [1, 1]
    ∧ ¬ List.Pairwise (fun a b => a ≠ b)
        ((load_process tdup).map Record.s_no) := by
  refine ⟨by decide, by decide, ?_⟩
  have heq : (load_process tdup).map Record.s_no = [1, 1] := by decide
  rw [heq]
  decide

/-- `update_filtered_data_and_reset_nav`'s filtering step (src/main.py
lines 264-269): "All" keeps the whole store, any other category keeps the
rows whose `crop_name` equals it, in store order. -/
def rebuild (store : List Record) (category : String) : List Record :=
  if category = "All" then store
  else store.filter (fun r => r.crop_name == category)

/-- `get_current_batch_points` (src/main.py lines 255-260):
`gdf.iloc[current_batch*batch_size : current_batch*batch_size+batch_size]`,
or empty when the frame is missing/empty. -/
def get_current_batch_points (gdf : List Record)
    (current_batch batch_size : Nat) : List Record :=
  if gdf.isEmpty then []
  else (gdf.drop (current_batch * batch_size)).take batch_size

/-- `total_batches` as computed at src/main.py lines 410-411:
`math.ceil(len(view)/batch_size)` (for positive `batch_size` this is
`(len + batch_size - 1) / batch_size` in integer arithmetic), followed by
the floor-to-1 adjustment `if total_batches == 0: total_batches = 1`. -/
def total_batches (view : List Record) (batch_size : Nat) : Nat :=
  if (view.length + batch_size - 1) / batch_size = 0 then 1
  else (view.length + batch_size - 1) / batch_size

/-- The Streamlit session state of the app (src/main.py lines 115-133),
restricted to the fields the verified claims are about; the map-focus
fields (`map_center`, `map_zoom_level`) are presentation-only and omitted. -/
structure AppState where
  gdf : Option (List Record)
  filtered_gdf : Option (List Record)
  selected_crop : String
  current_batch : Nat
  current_point : Nat
  batch_size : Nat
  last_uploaded_files_names : List FileEntry

/-- The initial session state (src/main.py lines 115-133). -/
def initState : AppState :=
  { gdf := none, filtered_gdf := none, selected_crop := "All"
  , current_batch := 0, current_point := 0, batch_size := 10
  , last_uploaded_files_names := [] }

/-- The current batch of the session (what the main content area slices). -/
def currentBatchOf (s : AppState) : List Record :=
  match s.filtered_gdf with
  | some f => get_current_batch_points f s.current_batch s.batch_size
  | none => []

/-- `update_filtered_data_and_reset_nav` (src/main.py lines 262-282):
rebuild the filtered view from the store and reset the cursor to (0,0).
(The auto-zoom part only touches the omitted map-focus fields.) -/
def update_filtered_data_and_reset_nav (s : AppState) : AppState :=
  match s.gdf with
  | none => s
  | some g =>
    { s with filtered_gdf := some (rebuild g s.selected_crop),
             current_batch := 0, current_point := 0 }

/-- The crop-filter selectbox: the widget stores the new value in
`selected_crop`, then the `on_change` callback rebuilds the view
(src/main.py lines 360-365). -/
def setFilter (s : AppState) (c : String) : AppState :=
  update_filtered_data_and_reset_nav { s with selected_crop := c }

/-- The sidebar upload handler (src/main.py lines 344-354): when files are
present and differ from the last loaded ones (or no store is installed),
`st.session_state.gdf = load_data(...)` runs; on success the file names are
remembered, the filter resets to "All" and the view is rebuilt; on failure
the store has been overwritten with `None` and the name memo is cleared. -/
def upload_handler (s : AppState) (u : Upload) : AppState :=
  if u.names = [] then s
  else if s.gdf = none ∨ u.names ≠ s.last_uploaded_files_names then
    match load_data u with
    | some g =>
      update_filtered_data_and_reset_nav
        { s with gdf := some g,
                 last_uploaded_files_names := u.names,
                 selected_crop := "All" }
    | none => { s with gdf := none, last_uploaded_files_names := [] }
  else s

/-- The stale-cursor clamp performed by the main content area before using
`current_point` (src/main.py lines 408-417): inside the rendered branch
(store and non-empty view and non-empty batch), an out-of-range
`current_point` is set to `len(batch_points_df) - 1`. -/
def renderClamp (s : AppState) : AppState :=
  match s.gdf, s.filtered_gdf with
  | some _, some f =>
    if f.isEmpty then s
    else
      if (get_current_batch_points f s.current_batch s.batch_size).isEmpty then s
      else if (get_current_batch_points f s.current_batch s.batch_size).length
          ≤ s.current_point then
        { s with current_point :=
            (get_current_batch_points f s.current_batch s.batch_size).length - 1 }
      else s
  | _, _ => s

/-- Whether the navigation/validation controls are rendered at all
(src/main.py lines 408-415: store present, view present and non-empty,
current batch non-empty). -/
def controlsShown (s : AppState) : Bool :=
  match s.gdf, s.filtered_gdf with
  | some _, some f =>
    !f.isEmpty
      && !(get_current_batch_points f s.current_batch s.batch_size).isEmpty
  | _, _ => false

/-- `total_batches` of the session's current view. -/
def totalBatchesOf (s : AppState) : Nat :=
  match s.filtered_gdf with
  | some f => total_batches f s.batch_size
  | none => 0

/-- "◀ Prev Batch" (src/main.py lines 448-452): enabled unless
`current_batch == 0`; decrements the batch and resets the point to 0. -/
def prevBatchClick (s : AppState) : AppState :=
  let s := renderClamp s
  if controlsShown s && decide (0 < s.current_batch) then
    { s with current_batch := s.current_batch - 1, current_point := 0 }
  else s

/-- "Next Batch ▶" (src/main.py lines 454-458): enabled unless
`current_batch >= total_batches - 1`; increments the batch and resets the
point to 0. -/
def nextBatchClick (s : AppState) : AppState :=
  let s := renderClamp s
  if controlsShown s && decide (s.current_batch < totalBatchesOf s - 1) then
    { s with current_batch := s.current_batch + 1, current_point := 0 }
  else s

/-- "◀ Prev Point" (src/main.py lines 461-464): enabled unless
`current_point == 0`. -/
def prevPointClick (s : AppState) : AppState :=
  let s := renderClamp s
  if controlsShown s && decide (0 < s.current_point) then
    { s with current_point := s.current_point - 1 }
  else s

/-- "Next Point ▶" (src/main.py lines 466-469): enabled unless
`current_point >= len(batch_points_df) - 1`. -/
def nextPointClick (s : AppState) : AppState :=
  let s := renderClamp s
  if controlsShown s && decide (s.current_point < (currentBatchOf s).length - 1) then
    { s with current_point := s.current_point + 1 }
  else s

/-- The "✅ Correct" / "❌ Incorrect" buttons (src/main.py lines 470-482):
take the record at `batch_points_df.index[current_point]` (after the render
clamp) and write its validation label through both the filtered view and
the store; the cursor is not moved. -/
def validateCurrent (s : AppState) (v : String) : AppState :=
  let s := renderClamp s
  match s.gdf, s.filtered_gdf with
  | some g, some f =>
    match nth (get_current_batch_points f s.current_batch s.batch_size)
        s.current_point with
    | some r =>
      { s with filtered_gdf := some (setByIdx f r.idx v),
               gdf := some (setByIdx g r.idx v) }
    | none => s
  | _, _ => s

/-- `on_non_validated_point_select` (src/main.py lines 296-313): locate the
selected serial number's position in the filtered view
(`index[0]` + `index.get_loc` = position of the first match), then set
`current_batch = floor(position / batch_size)` and
`current_point = position % batch_size`; any failure (id absent, no view)
raises, is caught, and is surfaced as an error message. -/
def on_non_validated_point_select (s : AppState) (n : Int) :
    Except String AppState :=
  match s.filtered_gdf with
  | none => Except.error "no data loaded"
  | some f =>
    match findPos (fun r => r.s_no == n) f with
    | none => Except.error "point not found in current view"
    | some pos =>
      Except.ok { s with current_batch := pos / s.batch_size,
                         current_point := pos % s.batch_size }

/-- The state transition actually performed by the dropdown callback: on
error the exception is caught (src/main.py line 312) and the session state
is left unchanged. -/
def jumpClick (s : AppState) (n : Int) : AppState :=
  match on_non_validated_point_select s n with
  | Except.ok s' => s'
  | Except.error _ => s

/-- Validation status the store/view reports for a serial id (lookup of the
first row with that `S_No`). -/
def statusById (l : List Record) (n : Int) : Option String :=
  (firstWith (fun r => r.s_no == n) l).map Record.validation

/-- The grouped non-validated listing (src/main.py lines 494-510): one
entry `(batch number, serial id, crop)` per row of the view whose status is
"Not Validated", with `batch number = floor(position / batch_size) + 1`. -/
def nonValidatedIndexAux (batch_size pos : Nat) :
    List Record → List (Nat × Int × String)
  | [] => []
  | r :: rs =>
    if r.validation == "Not Validated" then
      (pos / batch_size + 1, r.s_no, r.crop_name)
        :: nonValidatedIndexAux batch_size (pos + 1) rs
    else nonValidatedIndexAux batch_size (pos + 1) rs

def nonValidatedIndex (f : List Record) (batch_size : Nat) :
    List (Nat × Int × String) :=
  nonValidatedIndexAux batch_size 0 f

/-- C5: `Rebuild(store, category)` is pure and total (a total Lean
function): category "All" yields the full store in load order; any other
category yields exactly the subsequence of records whose category field
equals the argument, in store order (an empty result is valid). -/
theorem rebuild_pure_total (store : List Record) (c : String) :
    (c = "All" → rebuild store c = store)
    ∧ (c ≠ "All" →
        rebuild store c = store.filter (fun r => r.crop_name == c)
        ∧ (rebuild store c).Sublist store
        ∧ (∀ r ∈ rebuild store c, r.crop_name = c)
        ∧ (∀ r ∈ store, r.crop_name = c → r ∈ rebuild store c)) := by
  constructor
  · intro h
    simp [rebuild, h]
  · intro h
    refine ⟨by simp [rebuild, h], ?_, ?_, ?_⟩
    · simp only [rebuild, if_neg h]
      exact List.filter_sublist store
    · intro r hr
      simp only [rebuild, if_neg h, List.mem_filter, beq_iff_eq] at hr
      exact hr.2
    · intro r hr hc
      simp only [rebuild, if_neg h, List.mem_filter, beq_iff_eq]
      exact ⟨hr, hc⟩

/-- A concrete record with index `i`, serial id `i+1` and a given crop. -/
def mkRec (i : Nat) (c : String) : Record :=
  { idx := i, s_no := Int.ofNat i + 1, crop_name := c
  , lat := Int.ofNat i, lon := Int.ofNat (100 + i)
  , validation := "Not Validated" }

/-- Concrete mixed-crop store. -/
def storeRW : List Record := [mkRec 0 "Rice", mkRec 1 "Wheat", mkRec 2 "Rice"]

theorem rebuild_pure_total_witness :
    rebuild storeRW "All" = storeRW
    ∧ (("Rice" : String) ≠ "All"
      ∧ (rebuild storeRW "Rice" = storeRW.filter (fun r => r.crop_name == "Rice")
        ∧ (rebuild storeRW "Rice").Sublist storeRW
        ∧ (∀ r ∈ rebuild storeRW "Rice", r.crop_name = "Rice")
        ∧ (∀ r ∈ storeRW, r.crop_name = "Rice" → r ∈ rebuild storeRW "Rice"))) :=
  ⟨(rebuild_pure_total storeRW "All").1 rfl,
   by decide,
   (rebuild_pure_total storeRW "Rice").2 (by decide)⟩

lemma total_batches_mul_ge (view : List Record) (bs : Nat) (hbs : 0 < bs) :
    view.length ≤ total_batches view bs * bs := by
  have hdm : bs * ((view.length + bs - 1) / bs) + (view.length + bs - 1) % bs
      = view.length + bs - 1 := Nat.div_add_mod _ _
  have hlt : (view.length + bs - 1) % bs < bs := Nat.mod_lt _ hbs
  have hcomm : ((view.length + bs - 1) / bs) * bs
      = bs * ((view.length + bs - 1) / bs) := Nat.mul_comm _ _
  unfold total_batches
  by_cases h : (view.length + bs - 1) / bs = 0
  · rw [if_pos h]
    rw [h] at hdm
    simp at hdm
    omega
  · rw [if_neg h]
    omega

/-- C6 (amended): `CurrentBatch` returns the slice
`view[batch*batch_size : batch*batch_size + batch_size]`, which is empty
when the view is empty or the batch index is out of range; for a non-empty
view `TotalBatches` equals `ceil(len(view)/batch_size)`, and equals 1 when
`batch_size ≥ len(view)`.  For an EMPTY view the code's expression (with
its floor-to-1 adjustment, src/main.py line 411) yields 1, not 0 — the code
only ever evaluates it on non-empty views. -/
theorem batching_arithmetic (view : List Record) (cb bs : Nat)
    (hbs : 0 < bs) :
    get_current_batch_points view cb bs = (view.drop (cb * bs)).take bs
    ∧ (view = [] → get_current_batch_points view cb bs = [])
    ∧ (total_batches view bs ≤ cb → get_current_batch_points view cb bs = [])
    ∧ (view ≠ [] → total_batches view bs = (view.length + bs - 1) / bs)
    ∧ (view ≠ [] → view.length ≤ bs → total_batches view bs = 1)
    ∧ (view = [] → total_batches view bs = 1) := by
  have hslice : get_current_batch_points view cb bs
      = (view.drop (cb * bs)).take bs := by
    by_cases h : view = []
    · subst h
      simp [get_current_batch_points]
    · simp [get_current_batch_points, h]
  refine ⟨hslice, ?_, ?_, ?_, ?_, ?_⟩
  · intro h
    subst h
    simp [get_current_batch_points]
  · intro h
    rw [hslice]
    have hge : view.length ≤ cb * bs := by
      have := total_batches_mul_ge view bs hbs
      have := Nat.mul_le_mul_right bs h
      omega
    rw [List.drop_eq_nil_of_le hge]
    simp
  · intro h
    have hlen : 0 < view.length := List.length_pos.mpr h
    have hne : (view.length + bs - 1) / bs ≠ 0 := by
      have : 1 * bs ≤ view.length + bs - 1 := by omega
      have := (Nat.le_div_iff_mul_le hbs).mpr this
      omega
    simp [total_batches, hne]
  · intro h hle
    have hlen : 0 < view.length := List.length_pos.mpr h
    have h1 : 1 ≤ (view.length + bs - 1) / bs := by
      have : 1 * bs ≤ view.length + bs - 1 := by omega
      exact (Nat.le_div_iff_mul_le hbs).mpr this
    have h2 : (view.length + bs - 1) / bs < 2 := by
      have : view.length + bs - 1 < 2 * bs := by omega
      exact (Nat.div_lt_iff_lt_mul hbs).mpr (by omega)
    have heq : (view.length + bs - 1) / bs = 1 := by omega
    simp [total_batches, heq]
  · intro h
    subst h
    have hz : (bs - 1) / bs = 0 := Nat.div_eq_of_lt (by omega)
    simp [total_batches, hz]

/-- C6 counterexample: on an empty view the code's `total_batches`
expression evaluates to 1, not 0 as the claim states. -/
theorem total_batches_empty_counterexample :
    total_batches ([] : List Record) 10 = 1 ∧ (1 : Nat) ≠ 0 := by
  decide

theorem batching_arithmetic_witness :
    (0 : Nat) < 10
    ∧ (get_current_batch_points storeRW 0 10 = (storeRW.drop (0 * 10)).take 10
      ∧ (storeRW = [] → get_current_batch_points storeRW 0 10 = [])
      ∧ (total_batches storeRW 10 ≤ 0 → get_current_batch_points storeRW 0 10 = [])
      ∧ (storeRW ≠ [] → total_batches storeRW 10 = (storeRW.length + 10 - 1) / 10)
      ∧ (storeRW ≠ [] → storeRW.length ≤ 10 → total_batches storeRW 10 = 1)
      ∧ (storeRW = [] → total_batches storeRW 10 = 1)) :=
  ⟨by decide, batching_arithmetic storeRW 0 10 (by decide)⟩

lemma nth_lt (l : List Record) (i : Nat) (r : Record)
    (h : nth l i = some r) : i < l.length := by
  induction l generalizing i with
  | nil => cases h
  | cons a rest ih =>
    cases i with
    | zero => simp
    | succ j =>
      have := ih j (by simpa [nth] using h)
      simp only [List.length_cons]
      omega

lemma nth_mem (l : List Record) (i : Nat) (r : Record)
    (h : nth l i = some r) : r ∈ l := by
  induction l generalizing i with
  | nil => cases h
  | cons a rest ih =>
    cases i with
    | zero =>
      simp only [nth, Option.some.injEq] at h
      simp [h]
    | succ j => exact List.mem_cons_of_mem _ (ih j (by simpa [nth] using h))

lemma findPos_lt (p : Record → Bool) (l : List Record) (pos : Nat)
    (h : findPos p l = some pos) : pos < l.length := by
  induction l generalizing pos with
  | nil => cases h
  | cons a rest ih =>
    by_cases hp : p a
    · simp only [findPos, if_pos hp, Option.some.injEq] at h
      simp only [List.length_cons]
      omega
    · simp only [findPos, if_neg hp, Option.map_eq_some'] at h
      obtain ⟨q, hq, hpos⟩ := h
      have := ih q hq
      simp only [List.length_cons]
      omega

lemma findPos_none (p : Record → Bool) (l : List Record)
    (h : ∀ x ∈ l, p x = false) : findPos p l = none := by
  induction l with
  | nil => rfl
  | cons a rest ih =>
    have ha : p a = false := h a (List.mem_cons_self _ _)
    simp only [findPos, ha, Bool.false_eq_true, if_false]
    rw [ih (fun x hx => h x (List.mem_cons_of_mem _ hx))]
    rfl

lemma findPos_sno (f : List Record) (n : Int) (pos : Nat) (r : Record)
    (hnth : nth f pos = some r) (hsno : r.s_no = n)
    (huniq : List.Pairwise (fun a b => a.s_no ≠ b.s_no) f) :
    findPos (fun x => x.s_no == n) f = some pos := by
  induction f generalizing pos with
  | nil => cases hnth
  | cons a rest ih =>
    have hp := List.pairwise_cons.mp huniq
    cases pos with
    | zero =>
      simp only [nth, Option.some.injEq] at hnth
      subst hnth
      simp [findPos, hsno]
    | succ j =>
      have hnth' : nth rest j = some r := by simpa [nth] using hnth
      have hmem : r ∈ rest := nth_mem rest j r hnth'
      have hne : a.s_no ≠ n := by
        rw [← hsno]
        exact hp.1 r hmem
      simp only [findPos, beq_iff_eq, if_neg hne]
      rw [ih j hnth' hp.2]
      rfl

/-- C7: `JumpToPointById`.  When the selected serial id sits at position
`pos` of the current view (with serial ids unique in the view, as the app
guarantees for its own data), the callback sets the cursor atomically to
`(pos / batch_size, pos % batch_size)`; when the id is absent from the
current view, the lookup raises and the callback reports an error. -/
theorem jump_to_point_by_id (s : AppState) (f : List Record) (n : Int)
    (pos : Nat) (r : Record)
    (hf : s.filtered_gdf = some f)
    (hnth : nth f pos = some r) (hsno : r.s_no = n)
    (huniq : List.Pairwise (fun a b => a.s_no ≠ b.s_no) f) :
    on_non_validated_point_select s n
      = Except.ok { s with current_batch := pos / s.batch_size,
                           current_point := pos % s.batch_size }
    ∧ (∀ (s' : AppState) (f' : List Record) (m : Int),
        s'.filtered_gdf = some f' → (∀ x ∈ f', x.s_no ≠ m) →
        on_non_validated_point_select s' m
          = Except.error "point not found in current view") := by
  constructor
  · have hfp := findPos_sno f n pos r hnth hsno huniq
    simp only [on_non_validated_point_select, hf, hfp]
  · intro s' f' m hf' habsent
    have hnone : findPos (fun x => x.s_no == m) f' = none :=
      findPos_none _ _ (fun x hx => by
        simp only [beq_eq_false_iff_ne, ne_eq]
        exact habsent x hx)
    simp only [on_non_validated_point_select, hf', hnone]

/-- Concrete 25-record store (serial ids 1..25, all "Rice", distinct
coordinates). -/
def store25 : List Record := (List.range 25).map (fun i => mkRec i "Rice")

/-- Session state holding `store25` with the unfiltered view and
batch_size 10 (3 batches: 10, 10, 5). -/
def s25 : AppState :=
  { gdf := some store25, filtered_gdf := some store25, selected_crop := "All"
  , current_batch := 0, current_point := 0, batch_size := 10
  , last_uploaded_files_names := [] }

theorem jump_to_point_by_id_witness :
    nth store25 17 = some (mkRec 17 "Rice")
    ∧ on_non_validated_point_select s25 18
        = Except.ok { s25 with current_batch := 1, current_point := 7 }
    ∧ on_non_validated_point_select s25 99
        = Except.error "point not found in current view" :=
  ⟨by decide,
   (jump_to_point_by_id s25 store25 18 17 (mkRec 17 "Rice") rfl (by decide)
     (by decide) (by decide)).1,
   (jump_to_point_by_id s25 store25 18 17 (mkRec 17 "Rice") rfl (by decide)
     (by decide) (by decide)).2 s25 store25 99 rfl (by decide)⟩

/-- The dropdown callback as a state transition (error caught, state kept). -/
lemma jumpClick_eq (s : AppState) (n : Int) (s' : AppState)
    (h : on_non_validated_point_select s n = Except.ok s') :
    jumpClick s n = s' := by
  simp [jumpClick, h]

lemma renderClamp_eq_self (s : AppState) (f : List Record)
    (hf : s.filtered_gdf = some f)
    (hlt : s.current_point
      < (get_current_batch_points f s.current_batch s.batch_size).length) :
    renderClamp s = s := by
  have hfe : f.isEmpty = false := by
    cases f with
    | nil => simp [get_current_batch_points] at hlt
    | cons a l => rfl
  have hbe : (get_current_batch_points f s.current_batch s.batch_size).isEmpty
      = false := by
    cases hb : get_current_batch_points f s.current_batch s.batch_size with
    | nil => rw [hb] at hlt; simp at hlt
    | cons a l => rfl
  have hnl : ¬ ((get_current_batch_points f s.current_batch s.batch_size).length
      ≤ s.current_point) := Nat.not_le.mpr hlt
  cases hgdf : s.gdf with
  | none => simp [renderClamp, hgdf]
  | some g => simp [renderClamp, hgdf, hf, hfe, hbe, hnl]

/-- C2 (amended): `ValidateCurrent(status)` writes the status of the record
at the current cursor position through both the Record Store and the View,
and leaves the cursor unchanged — it does NOT advance via `NextPoint`. -/
theorem validate_current_sets_status_no_advance (s : AppState) (v : String)
    (g f : List Record) (r : Record)
    (hg : s.gdf = some g) (hf : s.filtered_gdf = some f)
    (hr : nth (get_current_batch_points f s.current_batch s.batch_size)
        s.current_point = some r) :
    (validateCurrent s v).current_batch = s.current_batch
    ∧ (validateCurrent s v).current_point = s.current_point
    ∧ (validateCurrent s v).gdf = some (setByIdx g r.idx v)
    ∧ (validateCurrent s v).filtered_gdf = some (setByIdx f r.idx v) := by
  have hclamp : renderClamp s = s :=
    renderClamp_eq_self s f hf (nth_lt _ _ _ hr)
  simp [validateCurrent, hclamp, hg, hf, hr]

/-- Session state holding `storeRW` unfiltered. -/
def sRW : AppState :=
  { gdf := some storeRW, filtered_gdf := some storeRW, selected_crop := "All"
  , current_batch := 0, current_point := 0, batch_size := 10
  , last_uploaded_files_names := [] }

theorem validate_current_sets_status_no_advance_witness :
    nth (get_current_batch_points storeRW sRW.current_batch sRW.batch_size)
        sRW.current_point = some (mkRec 0 "Rice")
    ∧ ((validateCurrent sRW "Correct").current_batch = sRW.current_batch
      ∧ (validateCurrent sRW "Correct").current_point = sRW.current_point
      ∧ (validateCurrent sRW "Correct").gdf
          = some (setByIdx storeRW (mkRec 0 "Rice").idx "Correct")
      ∧ (validateCurrent sRW "Correct").filtered_gdf
          = some (setByIdx storeRW (mkRec 0 "Rice").idx "Correct")) :=
  ⟨by decide,
   validate_current_sets_status_no_advance sRW "Correct" storeRW storeRW
     (mkRec 0 "Rice") rfl rfl (by decide)⟩

/-- C2 counterexample: in the 25-record view with batch_size 10, after the
jump places the cursor at (1, 7), marking the point "Correct" leaves the
cursor at (1, 7) — it does not advance to (1, 8) as the claim states. -/
theorem validate_does_not_advance_counterexample :
    (jumpClick s25 18).current_batch = 1
    ∧ (jumpClick s25 18).current_point = 7
    ∧ (validateCurrent (jumpClick s25 18) "Correct").current_batch = 1
    ∧ (validateCurrent (jumpClick s25 18) "Correct").current_point = 7
    ∧ (7 : Nat) ≠ 8 := by
  decide

/-- C1 (amended): every failing load attempt that the upload handler
actually runs (files present, and either no store installed or the file
names differ from the last loaded ones) CLEARS the store: afterwards
`gdf` is `None` and the remembered file names are reset to `[]` — the
previously installed store is NOT preserved (src/main.py lines 347, 354:
`st.session_state.gdf = load_data(...)` runs before the `None` check). -/
theorem load_failure_clears_store (s : AppState) (u : Upload)
    (hne : u.names ≠ [])
    (hrun : s.gdf = none ∨ u.names ≠ s.last_uploaded_files_names)
    (hfail : load_data u = none) :
    (upload_handler s u).gdf = none
    ∧ (upload_handler s u).last_uploaded_files_names = [] := by
  simp [upload_handler, if_neg hne, if_pos hrun, hfail]

/-- A mixed upload: one CSV file and one shapefile component together
(the parse outcome is irrelevant — `load_data` rejects the mix first). -/
def uMixed : Upload :=
  { names := [{ base := "b", ext := ".csv" }, { base := "b", ext := ".shp" }]
  , parsed := Except.ok t3 }

theorem load_failure_clears_store_witness :
    uMixed.names ≠ []
    ∧ load_data uMixed = none
    ∧ (upload_handler sRW uMixed).gdf = none
    ∧ (upload_handler sRW uMixed).last_uploaded_files_names = [] :=
  ⟨by decide, by decide,
   (load_failure_clears_store sRW uMixed (by decide) (by decide) (by decide)).1,
   (load_failure_clears_store sRW uMixed (by decide) (by decide) (by decide)).2⟩

/-- C1 counterexample: with a store installed (`sRW.gdf = some storeRW`),
a failing (mixed shapefile+CSV) upload attempt leaves `gdf = None` — the
previously installed store is no longer installed afterwards. -/
theorem load_failure_counterexample :
    load_data uMixed = none
    ∧ sRW.gdf = some storeRW
    ∧ (upload_handler sRW uMixed).gdf = none
    ∧ (upload_handler sRW uMixed).gdf ≠ sRW.gdf := by
  decide

lemma eq_of_pairwise_sno (l : List Record)
    (hsno : List.Pairwise (fun a b => a.s_no ≠ b.s_no) l)
    (y : Record) (hy : y ∈ l) (r : Record) (hr : r ∈ l)
    (heq : y.s_no = r.s_no) : y = r := by
  induction l with
  | nil => cases hy
  | cons a rest ih =>
    have hp := List.pairwise_cons.mp hsno
    rcases List.mem_cons.mp hy with h1 | h1 <;>
      rcases List.mem_cons.mp hr with h2 | h2
    · rw [h1, h2]
    · subst h1
      exact absurd heq (hp.1 r h2)
    · subst h2
      exact absurd heq.symm (hp.1 y h1)
    · exact ih hp.2 h1 h2

lemma firstWith_setByIdx (l : List Record) (r : Record) (v : String)
    (hmem : r ∈ l)
    (hidx : List.Pairwise (fun a b => a.idx ≠ b.idx) l)
    (hsno : List.Pairwise (fun a b => a.s_no ≠ b.s_no) l) :
    firstWith (fun x => x.s_no == r.s_no) (setByIdx l r.idx v)
      = some { r with validation := v } := by
  induction l with
  | nil => cases hmem
  | cons a rest ih =>
    have hidx' := List.pairwise_cons.mp hidx
    have hsno' := List.pairwise_cons.mp hsno
    rcases List.mem_cons.mp hmem with h | h
    · subst h
      simp [setByIdx, firstWith]
    · have hne_idx : a.idx ≠ r.idx := hidx'.1 r h
      have hne_sno : a.s_no ≠ r.s_no := hsno'.1 r h
      simp only [setByIdx, List.map_cons, if_neg hne_idx, firstWith,
        beq_iff_eq, if_neg hne_sno]
      exact ih h hidx'.2 hsno'.2

lemma setByIdx_validation_of_sno (l : List Record) (r : Record) (v : String)
    (hmem : r ∈ l)
    (hsno : List.Pairwise (fun a b => a.s_no ≠ b.s_no) l) :
    ∀ x ∈ setByIdx l r.idx v, x.s_no = r.s_no → x.validation = v := by
  intro x hx hxs
  simp only [setByIdx, List.mem_map] at hx
  obtain ⟨y, hy, hyx⟩ := hx
  by_cases h : y.idx = r.idx
  · rw [if_pos h] at hyx
    rw [← hyx]
  · rw [if_neg h] at hyx
    subst hyx
    have : y = r := eq_of_pairwise_sno l hsno y hy r hmem hxs
    exact absurd (congrArg Record.idx this) h

lemma mem_of_mem_batch (f : List Record) (cb bs : Nat) (r : Record)
    (h : r ∈ get_current_batch_points f cb bs) : r ∈ f := by
  unfold get_current_batch_points at h
  by_cases he : f.isEmpty
  · simp [he] at h
  · rw [if_neg he] at h
    exact (List.drop_sublist _ _).subset ((List.take_sublist _ _).subset h)

lemma mem_nonValidatedIndexAux (l : List Record) (bs p : Nat)
    (e : Nat × Int × String) (h : e ∈ nonValidatedIndexAux bs p l) :
    ∃ x ∈ l, x.validation = "Not Validated" ∧ e.2.1 = x.s_no := by
  induction l generalizing p with
  | nil => cases h
  | cons a rest ih =>
    by_cases ha : a.validation = "Not Validated"
    · rw [show nonValidatedIndexAux bs p (a :: rest)
          = (p / bs + 1, a.s_no, a.crop_name)
              :: nonValidatedIndexAux bs (p + 1) rest from by
        simp [nonValidatedIndexAux, ha]] at h
      rcases List.mem_cons.mp h with h1 | h1
      · exact ⟨a, List.mem_cons_self _ _, ha, by rw [h1]⟩
      · obtain ⟨x, hx, hxv, hxe⟩ := ih (p + 1) h1
        exact ⟨x, List.mem_cons_of_mem _ hx, hxv, hxe⟩
    · rw [show nonValidatedIndexAux bs p (a :: rest)
          = nonValidatedIndexAux bs (p + 1) rest from by
        simp [nonValidatedIndexAux, ha]] at h
      obtain ⟨x, hx, hxv, hxe⟩ := ih (p + 1) h
      exact ⟨x, List.mem_cons_of_mem _ hx, hxv, hxe⟩

/-- C8: after marking the current point "Correct", both Record Store and
View report "Correct" for that record's serial id, and the non-validated
index rebuilt from the updated view no longer lists that serial id.  The
uniqueness hypotheses hold for every store the app loads (pandas index
labels are unique; for serial ids see C9). -/
theorem validation_visible_everywhere (s : AppState)
    (g f : List Record) (r : Record)
    (hg : s.gdf = some g) (hf : s.filtered_gdf = some f)
    (hsub : f.Sublist g)
    (hidx : List.Pairwise (fun a b => a.idx ≠ b.idx) g)
    (hsno : List.Pairwise (fun a b => a.s_no ≠ b.s_no) g)
    (hr : nth (get_current_batch_points f s.current_batch s.batch_size)
        s.current_point = some r) :
    (validateCurrent s "Correct").gdf = some (setByIdx g r.idx "Correct")
    ∧ (validateCurrent s "Correct").filtered_gdf
        = some (setByIdx f r.idx "Correct")
    ∧ statusById (setByIdx g r.idx "Correct") r.s_no = some "Correct"
    ∧ statusById (setByIdx f r.idx "Correct") r.s_no = some "Correct"
    ∧ (∀ e ∈ nonValidatedIndex (setByIdx f r.idx "Correct") s.batch_size,
        e.2.1 ≠ r.s_no) := by
  have hrf : r ∈ f := mem_of_mem_batch f s.current_batch s.batch_size r
    (nth_mem _ _ _ hr)
  have hrg : r ∈ g := hsub.subset hrf
  have hidxf : List.Pairwise (fun a b => a.idx ≠ b.idx) f :=
    List.Pairwise.sublist hsub hidx
  have hsnof : List.Pairwise (fun a b => a.s_no ≠ b.s_no) f :=
    List.Pairwise.sublist hsub hsno
  have hclamp : renderClamp s = s :=
    renderClamp_eq_self s f hf (nth_lt _ _ _ hr)
  refine ⟨?_, ?_, ?_, ?_, ?_⟩
  · simp [validateCurrent, hclamp, hg, hf, hr]
  · simp [validateCurrent, hclamp, hg, hf, hr]
  · simp [statusById, firstWith_setByIdx g r "Correct" hrg hidx hsno]
  · simp [statusById, firstWith_setByIdx f r "Correct" hrf hidxf hsnof]
  · intro e he heq
    obtain ⟨x, hx, hxv, hxe⟩ :=
      mem_nonValidatedIndexAux (setByIdx f r.idx "Correct") s.batch_size 0 e he
    have hxs : x.s_no = r.s_no := by rw [← hxe, heq]
    have := setByIdx_validation_of_sno f r "Correct" hrf hsnof x hx hxs
    rw [this] at hxv
    exact absurd hxv (by decide)

theorem validation_visible_everywhere_witness :
    nth (get_current_batch_points storeRW sRW.current_batch sRW.batch_size)
        sRW.current_point = some (mkRec 0 "Rice")
    ∧ ((validateCurrent sRW "Correct").gdf
        = some (setByIdx storeRW (mkRec 0 "Rice").idx "Correct")
      ∧ (validateCurrent sRW "Correct").filtered_gdf
          = some (setByIdx storeRW (mkRec 0 "Rice").idx "Correct")
      ∧ statusById (setByIdx storeRW (mkRec 0 "Rice").idx "Correct")
          (mkRec 0 "Rice").s_no = some "Correct"
      ∧ statusById (setByIdx storeRW (mkRec 0 "Rice").idx "Correct")
          (mkRec 0 "Rice").s_no = some "Correct"
      ∧ (∀ e ∈ nonValidatedIndex (setByIdx storeRW (mkRec 0 "Rice").idx "Correct")
            sRW.batch_size,
          e.2.1 ≠ (mkRec 0 "Rice").s_no)) :=
  ⟨by decide,
   validation_visible_everywhere sRW storeRW storeRW (mkRec 0 "Rice")
     rfl rfl (List.Sublist.refl _) (by decide) (by decide) (by decide)⟩

/-- The session states reachable by the app's own transitions, starting
from the initial session state: render passes (with their stale-cursor
clamp), uploads, filter changes, the four navigation buttons, the
non-validated dropdown jump, and validation clicks. -/
inductive Reachable : AppState → Prop where
  | init : Reachable initState
  | render {s : AppState} : Reachable s → Reachable (renderClamp s)
  | upload {s : AppState} (u : Upload) :
      Reachable s → Reachable (upload_handler s u)
  | filter_change {s : AppState} (c : String) :
      Reachable s → Reachable (setFilter s c)
  | prev_batch {s : AppState} : Reachable s → Reachable (prevBatchClick s)
  | next_batch {s : AppState} : Reachable s → Reachable (nextBatchClick s)
  | prev_point {s : AppState} : Reachable s → Reachable (prevPointClick s)
  | next_point {s : AppState} : Reachable s → Reachable (nextPointClick s)
  | jump {s : AppState} (n : Int) : Reachable s → Reachable (jumpClick s n)
  | validate {s : AppState} (v : String) :
      Reachable s → Reachable (validateCurrent s v)

/-- The cursor invariant: positive batch size, and the point index in range
whenever the current batch is non-empty. -/
def CursorInv (s : AppState) : Prop :=
  0 < s.batch_size
  ∧ (currentBatchOf s ≠ [] → s.current_point < (currentBatchOf s).length)

lemma inv_renderClamp (s : AppState) (h : CursorInv s) : CursorInv (renderClamp s) := by
  cases hg : s.gdf with
  | none => simpa [renderClamp, hg] using h
  | some g =>
    cases hf : s.filtered_gdf with
    | none => simpa [renderClamp, hg, hf] using h
    | some f =>
      by_cases h1 : f.isEmpty
      · simpa [renderClamp, hg, hf, h1] using h
      · by_cases h2 :
          (get_current_batch_points f s.current_batch s.batch_size).isEmpty
        · simpa [renderClamp, hg, hf, h1, h2] using h
        · by_cases h3 :
            (get_current_batch_points f s.current_batch s.batch_size).length
              ≤ s.current_point
          · have hres : renderClamp s
                = { s with current_point :=
                    (get_current_batch_points f s.current_batch
                      s.batch_size).length - 1 } := by
              simp [renderClamp, hg, hf, h1, h2, h3]
            rw [hres]
            refine ⟨h.1, ?_⟩
            intro hb
            have hlen : 0 < (get_current_batch_points f s.current_batch
                s.batch_size).length := by
              cases hx : get_current_batch_points f s.current_batch
                  s.batch_size with
              | nil => rw [hx] at h2; exact absurd rfl h2
              | cons a l => simp [hx]
            show (get_current_batch_points f s.current_batch
                s.batch_size).length - 1
              < (currentBatchOf { s with current_point :=
                  (get_current_batch_points f s.current_batch
                    s.batch_size).length - 1 }).length
            have hcb : currentBatchOf { s with current_point :=
                (get_current_batch_points f s.current_batch
                  s.batch_size).length - 1 }
                = get_current_batch_points f s.current_batch s.batch_size := by
              simp [currentBatchOf, hf]
            rw [hcb]
            omega
          · simpa [renderClamp, hg, hf, h1, h2, h3] using h

lemma inv_of_point_zero (s : AppState) (hb : 0 < s.batch_size)
    (hp : s.current_point = 0) : CursorInv s :=
  ⟨hb, fun h => by rw [hp]; exact List.length_pos.mpr h⟩

lemma currentBatchOf_congr (s s' : AppState)
    (hf : s'.filtered_gdf = s.filtered_gdf)
    (hb : s'.current_batch = s.current_batch)
    (hs : s'.batch_size = s.batch_size) :
    currentBatchOf s' = currentBatchOf s := by
  unfold currentBatchOf
  rw [hf, hb, hs]

lemma inv_congr (s s' : AppState)
    (hf : s'.filtered_gdf = s.filtered_gdf)
    (hb : s'.current_batch = s.current_batch)
    (hp : s'.current_point = s.current_point)
    (hs : s'.batch_size = s.batch_size)
    (h : CursorInv s) : CursorInv s' := by
  refine ⟨by rw [hs]; exact h.1, ?_⟩
  intro hne
  rw [currentBatchOf_congr s s' hf hb hs] at hne ⊢
  rw [hp]
  exact h.2 hne

lemma inv_update_filtered (s : AppState) (h : CursorInv s) :
    CursorInv (update_filtered_data_and_reset_nav s) := by
  cases hg : s.gdf with
  | none => simpa [update_filtered_data_and_reset_nav, hg] using h
  | some g =>
    have hres : update_filtered_data_and_reset_nav s
        = { s with filtered_gdf := some (rebuild g s.selected_crop),
                   current_batch := 0, current_point := 0 } := by
      simp [update_filtered_data_and_reset_nav, hg]
    rw [hres]
    exact inv_of_point_zero _ h.1 rfl

lemma inv_setFilter (s : AppState) (c : String) (h : CursorInv s) :
    CursorInv (setFilter s c) := by
  refine inv_update_filtered _ (inv_congr s _ rfl rfl rfl rfl h)

lemma inv_upload (s : AppState) (u : Upload) (h : CursorInv s) :
    CursorInv (upload_handler s u) := by
  by_cases h1 : u.names = []
  · simpa [upload_handler, h1] using h
  · by_cases h2 : s.gdf = none ∨ u.names ≠ s.last_uploaded_files_names
    · cases hl : load_data u with
      | none =>
        have hres : upload_handler s u
            = { s with gdf := none, last_uploaded_files_names := [] } := by
          simp [upload_handler, h1, h2, hl]
        rw [hres]
        exact inv_congr s _ rfl rfl rfl rfl h
      | some g =>
        have hres : upload_handler s u
            = update_filtered_data_and_reset_nav
                { s with gdf := some g,
                         last_uploaded_files_names := u.names,
                         selected_crop := "All" } := by
          simp [upload_handler, h1, h2, hl]
        rw [hres]
        exact inv_update_filtered _ (inv_congr s _ rfl rfl rfl rfl h)
    · simpa [upload_handler, h1, h2] using h

lemma inv_prevBatch (s : AppState) (h : CursorInv s) :
    CursorInv (prevBatchClick s) := by
  have h' := inv_renderClamp s h
  cases hc : controlsShown (renderClamp s)
      && decide (0 < (renderClamp s).current_batch) with
  | false => simpa [prevBatchClick, hc] using h'
  | true =>
    have hres : prevBatchClick s
        = { renderClamp s with
            current_batch := (renderClamp s).current_batch - 1,
            current_point := 0 } := by
      simp [prevBatchClick, hc]
    rw [hres]
    exact inv_of_point_zero _ h'.1 rfl

lemma inv_nextBatch (s : AppState) (h : CursorInv s) :
    CursorInv (nextBatchClick s) := by
  have h' := inv_renderClamp s h
  cases hc : controlsShown (renderClamp s)
      && decide ((renderClamp s).current_batch
        < totalBatchesOf (renderClamp s) - 1) with
  | false => simpa [nextBatchClick, hc] using h'
  | true =>
    have hres : nextBatchClick s
        = { renderClamp s with
            current_batch := (renderClamp s).current_batch + 1,
            current_point := 0 } := by
      simp [nextBatchClick, hc]
    rw [hres]
    exact inv_of_point_zero _ h'.1 rfl

lemma inv_prevPoint (s : AppState) (h : CursorInv s) :
    CursorInv (prevPointClick s) := by
  have h' := inv_renderClamp s h
  cases hc : controlsShown (renderClamp s)
      && decide (0 < (renderClamp s).current_point) with
  | false => simpa [prevPointClick, hc] using h'
  | true =>
    have hres : prevPointClick s
        = { renderClamp s with
            current_point := (renderClamp s).current_point - 1 } := by
      simp [prevPointClick, hc]
    rw [hres]
    refine ⟨h'.1, ?_⟩
    intro hb
    have hcb : currentBatchOf { renderClamp s with
        current_point := (renderClamp s).current_point - 1 }
        = currentBatchOf (renderClamp s) :=
      currentBatchOf_congr _ _ rfl rfl rfl
    rw [hcb] at hb ⊢
    have hlt := h'.2 hb
    show (renderClamp s).current_point - 1
      < (currentBatchOf (renderClamp s)).length
    omega

lemma inv_nextPoint (s : AppState) (h : CursorInv s) :
    CursorInv (nextPointClick s) := by
  have h' := inv_renderClamp s h
  cases hc : controlsShown (renderClamp s)
      && decide ((renderClamp s).current_point
        < (currentBatchOf (renderClamp s)).length - 1) with
  | false => simpa [nextPointClick, hc] using h'
  | true =>
    have hres : nextPointClick s
        = { renderClamp s with
            current_point := (renderClamp s).current_point + 1 } := by
      simp [nextPointClick, hc]
    rw [hres]
    have hlt : (renderClamp s).current_point
        < (currentBatchOf (renderClamp s)).length - 1 := by
      have := (Bool.and_eq_true _ _).mp hc
      exact of_decide_eq_true this.2
    refine ⟨h'.1, ?_⟩
    intro hb
    have hcb : currentBatchOf { renderClamp s with
        current_point := (renderClamp s).current_point + 1 }
        = currentBatchOf (renderClamp s) :=
      currentBatchOf_congr _ _ rfl rfl rfl
    rw [hcb] at hb ⊢
    show (renderClamp s).current_point + 1
      < (currentBatchOf (renderClamp s)).length
    omega

lemma batch_length (f : List Record) (cb bs : Nat)
    (hne : f.isEmpty = false) :
    (get_current_batch_points f cb bs).length
      = min bs (f.length - cb * bs) := by
  simp [get_current_batch_points, hne, List.length_take, List.length_drop]

lemma inv_jump (s : AppState) (n : Int) (h : CursorInv s) :
    CursorInv (jumpClick s n) := by
  cases hf : s.filtered_gdf with
  | none => simpa [jumpClick, on_non_validated_point_select, hf] using h
  | some f =>
    cases hp : findPos (fun r => r.s_no == n) f with
    | none => simpa [jumpClick, on_non_validated_point_select, hf, hp] using h
    | some pos =>
      have hlt : pos < f.length := findPos_lt _ _ _ hp
      have hres : jumpClick s n
          = { s with current_batch := pos / s.batch_size,
                     current_point := pos % s.batch_size } := by
        simp [jumpClick, on_non_validated_point_select, hf, hp]
      rw [hres]
      refine ⟨h.1, ?_⟩
      intro hb
      have hbs : 0 < s.batch_size := h.1
      have hcb : currentBatchOf
          { s with current_batch := pos / s.batch_size,
                   current_point := pos % s.batch_size }
          = get_current_batch_points f (pos / s.batch_size) s.batch_size := by
        simp [currentBatchOf, hf]
      rw [hcb] at hb ⊢
      have hfe : f.isEmpty = false := by
        cases f with
        | nil => simp at hlt
        | cons a l => rfl
      rw [batch_length f _ _ hfe]
      show pos % s.batch_size
        < min s.batch_size (f.length - pos / s.batch_size * s.batch_size)
      have hdm : s.batch_size * (pos / s.batch_size) + pos % s.batch_size
          = pos := Nat.div_add_mod _ _
      have hcomm : pos / s.batch_size * s.batch_size
          = s.batch_size * (pos / s.batch_size) := Nat.mul_comm _ _
      have hmod : pos % s.batch_size < s.batch_size := Nat.mod_lt _ hbs
      refine Nat.lt_min.mpr ⟨hmod, ?_⟩
      omega

lemma batch_length_setByIdx (f : List Record) (i : Nat) (v : String)
    (cb bs : Nat) :
    (get_current_batch_points (setByIdx f i v) cb bs).length
      = (get_current_batch_points f cb bs).length := by
  cases f with
  | nil => rfl
  | cons a l =>
    have h1 : (setByIdx (a :: l) i v).isEmpty = false := rfl
    have h2 : (a :: l).isEmpty = false := rfl
    rw [batch_length _ _ _ h1, batch_length _ _ _ h2]
    simp [setByIdx]

lemma inv_validate (s : AppState) (v : String) (h : CursorInv s) :
    CursorInv (validateCurrent s v) := by
  have h' := inv_renderClamp s h
  cases hg : (renderClamp s).gdf with
  | none => simpa [validateCurrent, hg] using h'
  | some g =>
    cases hff : (renderClamp s).filtered_gdf with
    | none => simpa [validateCurrent, hg, hff] using h'
    | some f =>
      cases hn : nth (get_current_batch_points f (renderClamp s).current_batch
          (renderClamp s).batch_size) (renderClamp s).current_point with
      | none => simpa [validateCurrent, hg, hff, hn] using h'
      | some r =>
        have hres : validateCurrent s v
            = { renderClamp s with
                filtered_gdf := some (setByIdx f r.idx v),
                gdf := some (setByIdx g r.idx v) } := by
          simp [validateCurrent, hg, hff, hn]
        rw [hres]
        refine ⟨h'.1, ?_⟩
        intro hb
        have hcb' : currentBatchOf { renderClamp s with
            filtered_gdf := some (setByIdx f r.idx v),
            gdf := some (setByIdx g r.idx v) }
            = get_current_batch_points (setByIdx f r.idx v)
                (renderClamp s).current_batch (renderClamp s).batch_size := by
          simp [currentBatchOf]
        have hcb : currentBatchOf (renderClamp s)
            = get_current_batch_points f (renderClamp s).current_batch
                (renderClamp s).batch_size := by
          simp [currentBatchOf, hff]
        rw [hcb'] at hb ⊢
        have hlen := batch_length_setByIdx f r.idx v
          (renderClamp s).current_batch (renderClamp s).batch_size
        have hpos : 0 < (get_current_batch_points (setByIdx f r.idx v)
            (renderClamp s).current_batch (renderClamp s).batch_size).length :=
          List.length_pos.mpr hb
        have hone : currentBatchOf (renderClamp s) ≠ [] := by
          rw [hcb]
          exact List.length_pos.mp (by omega)
        have hlt := h'.2 hone
        rw [hcb] at hlt
        show (renderClamp s).current_point
          < (get_current_batch_points (setByIdx f r.idx v)
              (renderClamp s).current_batch (renderClamp s).batch_size).length
        omega

lemma reachable_inv (s : AppState) (h : Reachable s) : CursorInv s := by
  induction h with
  | init =>
    exact ⟨by decide, fun hb => absurd rfl hb⟩
  | render _ ih => exact inv_renderClamp _ ih
  | upload u _ ih => exact inv_upload _ u ih
  | filter_change c _ ih => exact inv_setFilter _ c ih
  | prev_batch _ ih => exact inv_prevBatch _ ih
  | next_batch _ ih => exact inv_nextBatch _ ih
  | prev_point _ ih => exact inv_prevPoint _ ih
  | next_point _ ih => exact inv_nextPoint _ ih
  | jump n _ ih => exact inv_jump _ n ih
  | validate v _ ih => exact inv_validate _ v ih

/-- C3 (amended): for every reachable session state with a non-empty
current batch, `cursor.point < len(CurrentBatch)` (the lower bound 0 is
inherent to the `Nat` index); and whenever the stored point index is stale
(out of range) at render time, the clamp at src/main.py lines 416-417 sets
it to `len(CurrentBatch) - 1` — the LAST valid index, not 0. -/
theorem cursor_in_bounds_and_stale_clamp :
    (∀ s : AppState, Reachable s → currentBatchOf s ≠ []
      → s.current_point < (currentBatchOf s).length)
    ∧ (∀ (s : AppState) (g f : List Record),
        s.gdf = some g → s.filtered_gdf = some f
        → currentBatchOf s ≠ []
        → (currentBatchOf s).length ≤ s.current_point
        → (renderClamp s).current_point = (currentBatchOf s).length - 1) := by
  constructor
  · intro s h hb
    exact (reachable_inv s h).2 hb
  · intro s g f hg hf hb hstale
    have hcb : currentBatchOf s
        = get_current_batch_points f s.current_batch s.batch_size := by
      simp [currentBatchOf, hf]
    rw [hcb] at hb hstale ⊢
    have hfe : f.isEmpty = false := by
      cases f with
      | nil => simp [get_current_batch_points] at hb
      | cons a l => rfl
    have hbe : (get_current_batch_points f s.current_batch
        s.batch_size).isEmpty = false := by
      cases hx : get_current_batch_points f s.current_batch s.batch_size with
      | nil => exact absurd hx hb
      | cons a l => rfl
    simp [renderClamp, hg, hf, hfe, hbe, hstale]

/-- Concrete 15-record store (two batches of 10 and 5 at batch_size 10). -/
def store15 : List Record := (List.range 15).map (fun i => mkRec i "Rice")

/-- A session state on `store15` whose stored point index (7) is stale for
its current batch (batch 1, which holds only 5 records). -/
def sStale : AppState :=
  { gdf := some store15, filtered_gdf := some store15, selected_crop := "All"
  , current_batch := 1, current_point := 7, batch_size := 10
  , last_uploaded_files_names := [] }

/-- C3 counterexample: on a stale point index the render clamp produces
`len(CurrentBatch) - 1 = 4`, not 0 as the claim states. -/
theorem stale_clamp_not_zero_counterexample :
    (currentBatchOf sStale).length = 5
    ∧ (currentBatchOf sStale).length ≤ sStale.current_point
    ∧ (renderClamp sStale).current_point = 4
    ∧ (4 : Nat) ≠ 0 := by
  decide

/-- Source table whose load yields `store25`. -/
def t25 : RawTable :=
  { rows := (List.range 25).map (fun i =>
      { lat := Int.ofNat i, lon := Int.ofNat (100 + i), s_no := 0
      , crop_name := "Rice", validationRaw := RawVal.other "x" })
  , hasLat := true, hasLon := true, hasSNo := false, hasCrop := true
  , hasValidation := false }

/-- A CSV upload whose parse result is `t25`. -/
def u25 : Upload :=
  { names := [{ base := "pts", ext := ".csv" }], parsed := Except.ok t25 }

theorem cursor_in_bounds_and_stale_clamp_witness :
    (currentBatchOf (upload_handler initState u25) ≠ []
      ∧ (upload_handler initState u25).current_point
          < (currentBatchOf (upload_handler initState u25)).length)
    ∧ ((currentBatchOf sStale).length ≤ sStale.current_point
      ∧ (renderClamp sStale).current_point = (currentBatchOf sStale).length - 1) :=
  ⟨⟨by decide,
    cursor_in_bounds_and_stale_clamp.1 (upload_handler initState u25)
      (Reachable.upload u25 Reachable.init) (by decide)⟩,
   ⟨by decide,
    cursor_in_bounds_and_stale_clamp.2 sStale store15 store15 rfl rfl
      (by decide) (by decide)⟩⟩
